import Mathlib

/-!
Verification of the ReachInbox email-aggregation core: a shallow embedding of
the IMAP synchronization service (EmailSyncService), the AI categorization
service (AIService), the Postgres email store (DatabaseService) and the
Elasticsearch index (ElasticsearchService), with theorems checking the
natural-language specification against the code.

External collaborators (the IMAP server, the LLM provider, Postgres,
Elasticsearch, the vector store, Slack, webhooks) are modelled as explicit
environments: each fallible external call is given its outcome as data, and
the embedded control flow is translated statement by statement from the
TypeScript source.
-/

namespace ReachInbox

/-- Model of a JavaScript number as observed in this code: a rational, or NaN.
JSON.parse never yields NaN from a numeric literal, but a missing or
non-numeric field coerced through Math.max or Math.min behaves as NaN, and
Math.max and Math.min propagate NaN. -/
inductive JSNum where
  | num (q : ℚ)
  | nan
  deriving DecidableEq, Repr

/-- JavaScript Math.max on two numbers: NaN if either argument is NaN. -/
def jsMax : JSNum → JSNum → JSNum
  | .num a, .num b => .num (max a b)
  | _, _ => .nan

/-- JavaScript Math.min on two numbers: NaN if either argument is NaN. -/
def jsMin : JSNum → JSNum → JSNum
  | .num a, .num b => .num (min a b)
  | _, _ => .nan

/-- The closed unit interval on JS numbers; NaN is not in it. -/
def JSNum.inUnitInterval : JSNum → Prop
  | .num q => 0 ≤ q ∧ q ≤ 1
  | .nan => False

instance : DecidablePred JSNum.inUnitInterval := fun c => by
  cases c with
  | num q => exact inferInstanceAs (Decidable (0 ≤ q ∧ q ≤ 1))
  | nan => exact inferInstanceAs (Decidable False)

/-- JavaScript `a || b` on an optional string: the fallback is taken when the
value is absent or the empty string (falsy). -/
def jsOrString (a : Option String) (b : String) : String :=
  match a with
  | some s => if s.isEmpty then b else s
  | none => b

/-- Attachment metadata extracted by parseEmail (mailparser attachment). -/
structure Attachment where
  filename : String
  contentType : String
  size : Nat
  cid : Option String
  deriving DecidableEq, Repr

/-- EmailDocument, from ElasticsearchService.ts. -/
structure EmailDocument where
  id : String
  messageId : String
  accountId : Nat
  accountName : String
  folder : String
  subject : String
  fromEmail : String
  fromName : String
  toEmails : List String
  ccEmails : List String
  bccEmails : List String
  date : String
  receivedDate : String
  size : Nat
  flags : List String
  bodyText : String
  bodyHtml : String
  attachments : List Attachment
  aiCategory : String
  aiConfidence : JSNum
  isRead : Bool
  isImportant : Bool
  createdAt : String
  updatedAt : String
  deriving DecidableEq, Repr

/-- EmailCategorization, from AIService.ts. -/
structure EmailCategorization where
  category : String
  confidence : JSNum
  reasoning : String
  deriving DecidableEq, Repr

/-- Outcome of one provider round trip inside categorizeWithOpenAI or
categorizeWithAnthropic, as seen by the embedded code: the SDK call rejected
(error or timeout), the response carried no content, JSON.parse of the content
threw, or JSON.parse succeeded and the confidence field coerced to the given
JS number (NaN when missing or non-numeric). -/
inductive ProviderResult where
  | throwErr (msg : String)
  | noContent
  | unparsable
  | parsed (category : String) (confidence : JSNum) (reasoning : String)
  deriving DecidableEq, Repr

/-- Constructor-time configuration of AIService: the AI_PROVIDER env string
and whether the OpenAI and Anthropic clients were initialized. -/
structure AIServiceState where
  provider : String
  hasOpenAI : Bool
  hasAnthropic : Bool
  deriving DecidableEq, Repr

/-- The confidence clamp written in both provider branches:
Math.min(Math.max(parsed.confidence, 0), 1). -/
def clampConfidence (c : JSNum) : JSNum :=
  jsMin (jsMax c (.num 0)) (.num 1)

/-- categorizeWithOpenAI from AIService.ts, with the provider round trip
abstracted as a ProviderResult. -/
def categorizeWithOpenAI (st : AIServiceState) (resp : ProviderResult) :
    Except String EmailCategorization :=
  if !st.hasOpenAI then .error "OpenAI client not initialized"
  else
    match resp with
    | .throwErr m => .error m
    | .noContent => .error "No response from OpenAI"
    | .unparsable => .error "Invalid response format from AI"
    | .parsed c conf r =>
        .ok { category := c, confidence := clampConfidence conf, reasoning := r }

/-- categorizeWithAnthropic from AIService.ts; identical clamp and error
structure to the OpenAI branch. -/
def categorizeWithAnthropic (st : AIServiceState) (resp : ProviderResult) :
    Except String EmailCategorization :=
  if !st.hasAnthropic then .error "Anthropic client not initialized"
  else
    match resp with
    | .throwErr m => .error m
    | .noContent => .error "Unexpected response type from Anthropic"
    | .unparsable => .error "Invalid response format from AI"
    | .parsed c conf r =>
        .ok { category := c, confidence := clampConfidence conf, reasoning := r }

/-- The default categorization returned by the catch block of
categorizeEmail. -/
def defaultCategorization : EmailCategorization :=
  { category := "Not Interested"
    confidence := .num (1/2)
    reasoning := "AI categorization failed, defaulting to Not Interested" }

/-- buildCategorizationPrompt from AIService.ts, reduced to the parts of the
string that depend on the inputs (the template text around them is constant).
The body is truncated to its first 1000 characters as in the source. -/
def buildCategorizationPrompt (subject body fromEmail : String) : String :=
  subject ++ fromEmail ++ (body.take 1000)

/-- categorizeEmail from AIService.ts: choose a provider branch, and on any
thrown error return the default categorization instead of propagating. -/
def categorizeEmail (st : AIServiceState) (resp : ProviderResult)
    (subject body fromEmail : String) : EmailCategorization :=
  let _prompt := buildCategorizationPrompt subject body fromEmail
  let attempt : Except String EmailCategorization :=
    if st.provider == "openai" && st.hasOpenAI then categorizeWithOpenAI st resp
    else if st.hasAnthropic then categorizeWithAnthropic st resp
    else .error "No AI provider configured"
  match attempt with
  | .ok c => c
  | .error _ => defaultCategorization

/-- IMAPAccount, from EmailSyncService (part_001). -/
structure IMAPAccount where
  id : Nat
  name : String
  host : String
  port : Nat
  secure : Bool
  username : String
  password : String
  folders : List String
  isActive : Bool
  deriving DecidableEq, Repr

/-- Mail address as exposed by mailparser (value entries of from, to, cc,
bcc). -/
structure MailAddress where
  address : String
  name : String
  deriving DecidableEq, Repr

/-- The fields of a mailparser ParsedMail that parseEmail reads. Address
headers are modelled by their value arrays (empty when the header is
absent); optional fields are Option. Dates are carried as their ISO strings
since the code only ever calls toISOString on them. -/
structure ParsedMail where
  messageId : Option String
  fromAddrs : List MailAddress
  toAddrs : List MailAddress
  ccAddrs : List MailAddress
  bccAddrs : List MailAddress
  subject : Option String
  date : Option String
  receivedDate : Option String
  text : Option String
  html : Option String
  attachments : List Attachment
  flags : List String
  deriving DecidableEq, Repr

/-- parseEmail from EmailSyncService. The two impure reads inside the body
are passed explicitly: freshUuid is the value returned by the uuidv4() call
of this invocation (a fresh random draw each call), and now is the value of
new Date().toISOString() at this invocation. Returns none when the account
is unknown (the null return of the source). -/
def parseEmail (accounts : List IMAPAccount) (parsed : ParsedMail)
    (accountId : Nat) (folderName : String)
    (freshUuid : String) (now : String) : Option EmailDocument :=
  match accounts.find? (fun a => a.id == accountId) with
  | none => none
  | some account =>
    let emailId := freshUuid
    let messageId := jsOrString parsed.messageId emailId
    let fromEmail := ((parsed.fromAddrs.head?).map (fun a => a.address)).getD ""
    let fromName := ((parsed.fromAddrs.head?).map (fun a => a.name)).getD ""
    some
      { id := emailId
        messageId := messageId
        accountId := accountId
        accountName := account.name
        folder := folderName
        subject := jsOrString parsed.subject ""
        fromEmail := fromEmail
        fromName := fromName
        toEmails := parsed.toAddrs.map (fun a => a.address)
        ccEmails := parsed.ccAddrs.map (fun a => a.address)
        bccEmails := parsed.bccAddrs.map (fun a => a.address)
        date := parsed.date.getD now
        receivedDate := parsed.receivedDate.getD now
        size := (jsOrString parsed.text "").length
        flags := parsed.flags
        bodyText := jsOrString parsed.text ""
        bodyHtml := jsOrString parsed.html ""
        attachments := parsed.attachments
        aiCategory := "Not Interested"
        aiConfidence := .num (1/2)
        isRead := false
        isImportant := false
        createdAt := now
        updatedAt := now }

/-- One row of the emails table (DatabaseService.createTables); the columns
written by storeEmailInDatabase. The attachments column holds the JSON
serialization of the attachment list, modelled by the list itself. -/
structure EmailRow where
  message_id : String
  account_id : Nat
  folder : String
  subject : String
  from_email : String
  from_name : String
  to_emails : List String
  cc_emails : List String
  bcc_emails : List String
  date : String
  received_date : String
  size : Nat
  flags : List String
  body_text : String
  body_html : String
  attachments : List Attachment
  ai_category : String
  ai_confidence : JSNum
  is_read : Bool
  is_important : Bool
  created_at : String
  updated_at : String
  deriving DecidableEq, Repr

/-- The row inserted by the INSERT branch of storeEmailInDatabase. -/
def rowOfEmail (e : EmailDocument) : EmailRow :=
  { message_id := e.messageId
    account_id := e.accountId
    folder := e.folder
    subject := e.subject
    from_email := e.fromEmail
    from_name := e.fromName
    to_emails := e.toEmails
    cc_emails := e.ccEmails
    bcc_emails := e.bccEmails
    date := e.date
    received_date := e.receivedDate
    size := e.size
    flags := e.flags
    body_text := e.bodyText
    body_html := e.bodyHtml
    attachments := e.attachments
    ai_category := e.aiCategory
    ai_confidence := e.aiConfidence
    is_read := e.isRead
    is_important := e.isImportant
    created_at := e.createdAt
    updated_at := e.updatedAt }

/-- The ON CONFLICT (message_id) DO UPDATE branch of storeEmailInDatabase:
only updated_at, ai_category and ai_confidence are rewritten. -/
def applyAiUpdate (e : EmailDocument) (r : EmailRow) : EmailRow :=
  { r with
      updated_at := e.updatedAt
      ai_category := e.aiCategory
      ai_confidence := e.aiConfidence }

/-- The SQL statement of storeEmailInDatabase as acting on the emails table:
INSERT ... ON CONFLICT (message_id) DO UPDATE. The table carries a UNIQUE
constraint on message_id, so at most one row can match. -/
def upsertEmailRow (t : List EmailRow) (e : EmailDocument) : List EmailRow :=
  if t.any (fun r => r.message_id == e.messageId) then
    t.map (fun r => if r.message_id == e.messageId then applyAiUpdate e r else r)
  else t ++ [rowOfEmail e]

/-- storeEmailInDatabase from EmailSyncService: the upsert, whose own
try/catch swallows a database failure (dbOk false), leaving the table
unchanged. -/
def storeEmailInDatabase (dbOk : Bool) (t : List EmailRow) (e : EmailDocument) :
    List EmailRow :=
  if dbOk then upsertEmailRow t e else t

/-- Number of rows of the emails table holding the given message_id. -/
def countRows (t : List EmailRow) (mid : String) : Nat :=
  (t.filter (fun r => r.message_id == mid)).length

/-- Find a row of the emails table by message_id. -/
def dbFindRow (t : List EmailRow) (mid : String) : Option EmailRow :=
  t.find? (fun r => r.message_id == mid)

/-- The Elasticsearch emails index: documents keyed by their _id. -/
abbrev EsIndex : Type := List (String × EmailDocument)

/-- ElasticsearchService.getEmailById: a get by _id, null on 404. -/
def getEmailById (idx : EsIndex) (id : String) : Option EmailDocument :=
  (List.find? (fun p => p.1 == id) idx).map (fun p => p.2)

/-- ElasticsearchService.indexEmail success path: client.index with an
explicit id replaces the document at that id, or adds it. -/
def esIndexEmail (idx : EsIndex) (e : EmailDocument) : EsIndex :=
  if (List.find? (fun p => p.1 == e.id) idx).isSome then
    List.map (fun p => if p.1 == e.id then (p.1, e) else p) idx
  else idx ++ [(e.id, e)]

/-- The payload emitted on the newEmail socket channel by processEmails. -/
structure UiEvent where
  id : String
  subject : String
  fromEmail : String
  fromName : String
  aiCategory : String
  aiConfidence : JSNum
  date : String
  deriving DecidableEq, Repr

/-- The newEmail payload built from a processed email. -/
def uiEventOf (e : EmailDocument) : UiEvent :=
  { id := e.id
    subject := e.subject
    fromEmail := e.fromEmail
    fromName := e.fromName
    aiCategory := e.aiCategory
    aiConfidence := e.aiConfidence
    date := e.date }

/-- Behaviour of the external collaborators during one processEmails run,
keyed by the email id being handled. indexOk false means
ElasticsearchService.indexEmail throws (its catch rethrows); dbOk, vecOk,
slackOk and webhookOk false mean the corresponding call failed but the
failure was swallowed inside that service (their catches only log). The AI
provider round trip for each email is given by aiResp. -/
structure PipelineEnv where
  aiState : AIServiceState
  aiResp : String → ProviderResult
  dbOk : String → Bool
  indexOk : String → Bool
  vecOk : String → Bool
  slackOk : String → Bool
  webhookOk : String → Bool

/-- Observable downstream state touched by processEmails: the Elasticsearch
index, the emails table, the vector store ids, the notification sinks, the
emitted UI events, and the error log of the catch block. -/
structure PipelineState where
  es : EsIndex
  db : List EmailRow
  vec : List String
  slackNotifs : List String
  webhookNotifs : List String
  uiEvents : List UiEvent
  errorLog : List String

/-- The body of one iteration of the processEmails loop. An error result
carries the message and the partial state already committed when the throw
happened (the store to Postgres precedes the Elasticsearch index call, so a
failed index leaves the row stored). getEmailById is assumed reachable here:
its only modelled outcomes are found and not-found. -/
def processOne (env : PipelineEnv) (st : PipelineState) (email : EmailDocument) :
    Except (String × PipelineState) PipelineState :=
  match getEmailById st.es email.id with
  | some _ => .ok st
  | none =>
    let cat := categorizeEmail env.aiState (env.aiResp email.id)
      email.subject email.bodyText email.fromEmail
    let email := { email with aiCategory := cat.category, aiConfidence := cat.confidence }
    let st := { st with db := storeEmailInDatabase (env.dbOk email.id) st.db email }
    if !env.indexOk email.id then .error ("Failed to index email", st)
    else
      let st := { st with es := esIndexEmail st.es email }
      let st := { st with
        vec := if env.vecOk email.id then st.vec ++ [email.id] else st.vec }
      let st :=
        if cat.category == "Interested" then
          { st with
              slackNotifs :=
                if env.slackOk email.id then st.slackNotifs ++ [email.messageId]
                else st.slackNotifs
              webhookNotifs :=
                if env.slackOk email.id && env.webhookOk email.id then
                  st.webhookNotifs ++ [email.messageId]
                else st.webhookNotifs }
        else st
      .ok { st with uiEvents := st.uiEvents ++ [uiEventOf email] }

/-- The for loop of processEmails: a thrown error aborts the remaining
iterations and propagates to the surrounding catch. -/
def processLoop (env : PipelineEnv) (st : PipelineState) :
    List EmailDocument → Except (String × PipelineState) PipelineState
  | [] => .ok st
  | e :: rest =>
    match processOne env st e with
    | .ok st1 => processLoop env st1 rest
    | .error p => .error p

/-- processEmails from EmailSyncService: the loop wrapped in try/catch; the
catch logs the error, and the state reached before the throw stands. -/
def processEmails (env : PipelineEnv) (st : PipelineState)
    (emails : List EmailDocument) : PipelineState :=
  match processLoop env st emails with
  | .ok st1 => st1
  | .error (msg, st1) => { st1 with errorLog := st1.errorLog ++ [msg] }

/-- Environment of one fetchEmails burst: for each uid, the outcome of
simpleParser on the raw bytes (none when the parse threw and the message was
skipped), and the impure values drawn while parsing that uid (the uuidv4
result and the clock reading). -/
structure FetchEnv where
  rawParse : Nat → Option ParsedMail
  uuidOf : Nat → String
  nowOf : Nat → String

/-- The accumulation of the fetchEmails message handlers: each uid is
attempted in fetch order; a simpleParser throw is logged and the uid skipped;
a null parseEmail result is dropped by the emailDoc check; successes are
pushed onto the emails array in order. -/
def collectEmails (env : FetchEnv) (accounts : List IMAPAccount)
    (accountId : Nat) (folder : String) :
    List Nat → List EmailDocument → List EmailDocument
  | [], acc => acc
  | uid :: rest, acc =>
    match env.rawParse uid with
    | none => collectEmails env accounts accountId folder rest acc
    | some parsed =>
      match parseEmail accounts parsed accountId folder (env.uuidOf uid) (env.nowOf uid) with
      | none => collectEmails env accounts accountId folder rest acc
      | some doc => collectEmails env accounts accountId folder rest (acc ++ [doc])

/-- The parse outcome of a single uid in a burst. -/
def parseOf (env : FetchEnv) (accounts : List IMAPAccount)
    (accountId : Nat) (folder : String) (uid : Nat) : Option EmailDocument :=
  (env.rawParse uid).bind (fun p =>
    parseEmail accounts p accountId folder (env.uuidOf uid) (env.nowOf uid))

/-- fetchEmails from EmailSyncService, as the batch it hands to
processEmails on the fetch end event: the successfully parsed messages in
fetch order (the early return on an empty uid list yields no batch). -/
def fetchEmailsBatch (env : FetchEnv) (accounts : List IMAPAccount)
    (accountId : Nat) (folder : String) (uids : List Nat) : List EmailDocument :=
  if uids.isEmpty then [] else collectEmails env accounts accountId folder uids []

/-- The fixed reconnection delay of the IMAP error handler, in milliseconds
(the setTimeout argument). -/
def RECONNECT_DELAY_MS : Nat := 30000

/-- Orchestrator state of EmailSyncService: the in-memory account map, the
connection map (as the account ids holding a live Imap), the isRunning flag,
whether the periodic sync interval is armed, and the reconnects scheduled by
setTimeout (account id paired with the delay). -/
structure SyncState where
  accounts : List IMAPAccount
  connections : List Nat
  isRunning : Bool
  syncIntervalArmed : Bool
  pendingRetries : List (Nat × Nat)
  deriving DecidableEq, Repr

/-- The freshly constructed EmailSyncService before startSync. -/
def initialSyncState : SyncState :=
  { accounts := []
    connections := []
    isRunning := false
    syncIntervalArmed := false
    pendingRetries := [] }

/-- Whether the IMAP connect and authentication of an account reach the
ready event (true) or fire the error event (false). -/
structure ConnEnv where
  connectOk : Nat → Bool

/-- loadAccounts from EmailSyncService: the SQL already filters
WHERE is_active = true, so only active accounts enter the map. -/
def loadAccounts (dbAccounts : List IMAPAccount) : List IMAPAccount :=
  dbAccounts.filter (fun a => a.isActive)

/-- Map.set on the connection list: insert the account id if absent. -/
def connInsert (conns : List Nat) (aid : Nat) : List Nat :=
  if conns.contains aid then conns else conns ++ [aid]

/-- The error event handler registered by startIDLEConnection: delete the
connection and schedule a reconnect after the fixed delay. -/
def onImapError (st : SyncState) (aid : Nat) : SyncState :=
  { st with
      connections := st.connections.filter (fun c => c != aid)
      pendingRetries := st.pendingRetries ++ [(aid, RECONNECT_DELAY_MS)] }

/-- The end event handler registered by startIDLEConnection: node-imap
raises end when the link closes cleanly (server logout or hangup after an
idle timeout); the handler only deletes the connection and schedules no
reconnect. -/
def onImapEnd (st : SyncState) (aid : Nat) : SyncState :=
  { st with connections := st.connections.filter (fun c => c != aid) }

/-- startIDLEConnection from EmailSyncService: on a successful connect the
ready handler stores the connection in the map; on a failed connect the
error handler runs. -/
def startIDLEConnection (env : ConnEnv) (st : SyncState) (aid : Nat) : SyncState :=
  if env.connectOk aid then { st with connections := connInsert st.connections aid }
  else onImapError st aid

/-- The setTimeout callback scheduled by the error handler: retry
startIDLEConnection only while isRunning still holds. -/
def onRetryTimerFire (env : ConnEnv) (st : SyncState) (aid : Nat) : SyncState :=
  if st.isRunning then startIDLEConnection env st aid else st

/-- The kinds of connection failure named by the specification, mapped to
the events node-imap delivers for them: an abrupt transport error raises the
error event; a clean server-side close (hangup, or the server dropping an
idle session) raises the end event. -/
inductive ConnFailure where
  | transportError
  | serverHangup
  deriving DecidableEq, Repr

/-- Dispatch of a connection failure to the handler the source registered
for its event. -/
def onConnFailure (st : SyncState) (aid : Nat) : ConnFailure → SyncState
  | .transportError => onImapError st aid
  | .serverHangup => onImapEnd st aid

/-- startSync from EmailSyncService: load the active accounts, start one
IDLE connection per active account, arm the periodic timer, set isRunning. -/
def startSync (env : ConnEnv) (dbAccounts : List IMAPAccount) (st : SyncState) :
    SyncState :=
  let accts := loadAccounts dbAccounts
  let st := { st with accounts := accts }
  let st := accts.foldl
    (fun s a => if a.isActive then startIDLEConnection env s a.id else s) st
  { st with syncIntervalArmed := true, isRunning := true }

/-- Whether connection.end() succeeds for each account during stopSync. -/
structure StopEnv where
  endOk : Nat → Bool

/-- One connection.end() call, which may throw. -/
def closeConnection (env : StopEnv) (aid : Nat) : Except String Unit :=
  if env.endOk aid then .ok ()
  else .error ("Error closing connection for account " ++ toString aid)

/-- stopSync from EmailSyncService as an Except computation: isRunning is
cleared, the interval is disarmed, each connection.end() sits in its own
try/catch (a failure is only logged), the connection map is cleared, and the
surrounding try/catch swallows anything else. The returned list is the error
log of the per-connection catches. -/
def stopSyncE (env : StopEnv) (st : SyncState) :
    Except String (SyncState × List String) :=
  let st1 := { st with isRunning := false }
  let st2 := { st1 with syncIntervalArmed := false }
  let logs := st2.connections.filterMap (fun aid =>
    match closeConnection env aid with
    | .ok _ => none
    | .error m => some m)
  .ok ({ st2 with connections := [] }, logs)

/-- Events the orchestrator can still receive after a lifecycle call. -/
inductive OrchEvent where
  | periodicTick
  | retryTimer (aid : Nat)
  | newMail (aid : Nat)
  deriving DecidableEq, Repr

/-- The calls an event triggers, given the orchestrator state: the periodic
tick runs only while the interval is armed and isRunning holds; a scheduled
reconnect connects only while isRunning holds; new mail is fetched only on a
live connection. -/
def eventCalls (st : SyncState) : OrchEvent → List String
  | .periodicTick =>
    if st.syncIntervalArmed && st.isRunning then ["syncAllAccounts"] else []
  | .retryTimer aid =>
    if st.isRunning then ["imap.connect " ++ toString aid] else []
  | .newMail aid =>
    if st.connections.contains aid then ["fetchEmails " ++ toString aid] else []

/-- A configured active account used as concrete input. -/
def acctFixture : IMAPAccount :=
  { id := 1
    name := "acct"
    host := "imap.example.com"
    port := 993
    secure := true
    username := "user"
    password := "pw"
    folders := ["INBOX"]
    isActive := true }

/-- Account list holding only the fixture account. -/
def accountsFixture : List IMAPAccount := [acctFixture]

/-- The downstream state before any processing. -/
def emptyPipelineState : PipelineState :=
  { es := []
    db := []
    vec := []
    slackNotifs := []
    webhookNotifs := []
    uiEvents := []
    errorLog := [] }

/-- A raw message that mailparser returned without a Message-ID header and
without a parsable Date header. -/
def rawNoId : ParsedMail :=
  { messageId := none
    fromAddrs := [{ address := "alice@example.com", name := "Alice" }]
    toAddrs := []
    ccAddrs := []
    bccAddrs := []
    subject := some "Hello"
    date := none
    receivedDate := none
    text := some "hi there"
    html := none
    attachments := []
    flags := [] }

/-- The same raw message carrying a server Message-ID. -/
def rawWithId : ParsedMail :=
  { rawNoId with
      messageId := some "mid-1@example.com"
      date := some "2024-01-01T09:00:00.000Z" }

/-- An environment in which every collaborator succeeds and the provider
answers Interested with confidence 9/10. -/
def envHappy : PipelineEnv :=
  { aiState := { provider := "openai", hasOpenAI := true, hasAnthropic := false }
    aiResp := fun _ => .parsed "Interested" (.num (9/10)) "clear interest"
    dbOk := fun _ => true
    indexOk := fun _ => true
    vecOk := fun _ => true
    slackOk := fun _ => true
    webhookOk := fun _ => true }

/-- One notification burst: parse the raw fixture message with the fresh
uuid and clock value of that run, then hand the batch to processEmails, as
fetchEmails does. -/
def burstProcess (uuid now : String) (st : PipelineState) : PipelineState :=
  match parseEmail accountsFixture rawWithId 1 "INBOX" uuid now with
  | some doc => processEmails envHappy st [doc]
  | none => st

/-- State after the first burst fetched the message. -/
def stBurst1 : PipelineState :=
  burstProcess "aaaa-uuid-1" "2024-01-01T10:00:00.000Z" emptyPipelineState

/-- State after a second burst fetched the same raw message again (uuidv4
drew a different fresh value). -/
def stBurst2 : PipelineState :=
  burstProcess "bbbb-uuid-2" "2024-01-01T10:05:00.000Z" stBurst1

/-- C1: the claim says that when the same message identifier arrives in a
second fetch burst, the duplicate check of processEmails finds the earlier
record and skips the message before any downstream call. On the code the
check is getEmailById(email.id) where id is the uuidv4() value drawn by this
parse, never the message identifier, so the lookup misses and the second
occurrence runs the whole pipeline again: after two bursts of the same raw
message the index holds two documents with the same messageId, the vector
store holds two entries, notifications fired twice and two UI events were
emitted, while the duplicate check at the start of burst two returned
nothing. -/
theorem c1_duplicate_check_misses :
    getEmailById stBurst1.es "bbbb-uuid-2" = none ∧
    stBurst1.uiEvents.length = 1 ∧
    stBurst2.uiEvents.length = 2 ∧
    stBurst2.es.length = 2 ∧
    stBurst2.vec.length = 2 ∧
    stBurst2.slackNotifs.length = 2 ∧
    List.map (fun p => p.2.messageId) stBurst2.es
      = ["mid-1@example.com", "mid-1@example.com"] ∧
    countRows stBurst2.db "mid-1@example.com" = 1 := by
  refine ⟨?_, ?_, ?_, ?_, ?_, ?_, ?_, ?_⟩ <;> rfl

/-- Fixture email used as a pre-parsed pipeline input. -/
def mkEmail (id messageId subject : String) : EmailDocument :=
  { id := id
    messageId := messageId
    accountId := 1
    accountName := "acct"
    folder := "INBOX"
    subject := subject
    fromEmail := "alice@example.com"
    fromName := "Alice"
    toEmails := []
    ccEmails := []
    bccEmails := []
    date := "2024-01-01T09:00:00.000Z"
    receivedDate := "2024-01-01T09:00:00.000Z"
    size := 0
    flags := []
    bodyText := "hi"
    bodyHtml := ""
    attachments := []
    aiCategory := "Not Interested"
    aiConfidence := .num (1/2)
    isRead := false
    isImportant := false
    createdAt := "2024-01-01T10:00:00.000Z"
    updatedAt := "2024-01-01T10:00:00.000Z" }

/-- Environment in which Elasticsearch indexEmail throws for the first
email of the batch and everything else succeeds. -/
def envIndexFail : PipelineEnv :=
  { envHappy with
      aiResp := fun _ => .parsed "Not Interested" (.num (1/2)) "neutral"
      indexOk := fun i => i != "id-A" }

/-- Result of processing a two-message batch where indexing the first
message throws. -/
def stC2 : PipelineState :=
  processEmails envIndexFail emptyPipelineState
    [mkEmail "id-A" "mid-A" "first", mkEmail "id-B" "mid-B" "second"]

/-- C2: the claim says an error while forwarding one message is caught and
logged and every remaining message of the batch is still processed. In the
code the try/catch wraps the whole for loop and indexEmail rethrows, so the
throw on the first message aborts the loop: the error is indeed logged, and
the first message had already been stored to Postgres, but the second
message of the batch is never stored, indexed or emitted. -/
theorem c2_batch_aborted_on_index_error :
    stC2.errorLog = ["Failed to index email"] ∧
    (dbFindRow stC2.db "mid-A").isSome = true ∧
    dbFindRow stC2.db "mid-B" = none ∧
    stC2.es = [] ∧
    stC2.vec = [] ∧
    stC2.uiEvents = [] := by
  refine ⟨?_, ?_, ?_, ?_, ?_, ?_⟩ <;> rfl

/-- C5: the claim says parseEmail is deterministic on equal raw inputs, so a
message with no server identifier receives the same generated fallback
identifier on both parses. In the code the fallback identifier is the
uuidv4() value drawn by that invocation and the missing-date default is the
clock reading of that invocation, so two parses of the same raw message
yield different derived records: here the two runs give the two distinct
fresh uuids as messageId. -/
theorem c5_parse_not_deterministic :
    ((parseEmail accountsFixture rawNoId 1 "INBOX"
        "11111111-1111-4111-8111-111111111111" "2024-01-01T10:00:00.000Z").map
      (fun e => e.messageId) = some "11111111-1111-4111-8111-111111111111") ∧
    ((parseEmail accountsFixture rawNoId 1 "INBOX"
        "22222222-2222-4222-8222-222222222222" "2024-01-01T10:05:00.000Z").map
      (fun e => e.messageId) = some "22222222-2222-4222-8222-222222222222") ∧
    parseEmail accountsFixture rawNoId 1 "INBOX"
        "11111111-1111-4111-8111-111111111111" "2024-01-01T10:00:00.000Z"
      ≠ parseEmail accountsFixture rawNoId 1 "INBOX"
        "22222222-2222-4222-8222-222222222222" "2024-01-01T10:05:00.000Z" := by
  refine ⟨rfl, rfl, ?_⟩
  decide

/-- The accumulator form of the fetch collection equals append of the
per-uid parse outcomes in fetch order. -/
theorem collectEmails_eq_filterMap (env : FetchEnv) (accounts : List IMAPAccount)
    (accountId : Nat) (folder : String) (uids : List Nat) (acc : List EmailDocument) :
    collectEmails env accounts accountId folder uids acc
      = acc ++ uids.filterMap (parseOf env accounts accountId folder) := by
  induction uids generalizing acc with
  | nil => simp [collectEmails]
  | cons uid rest ih =>
    rw [collectEmails]
    cases hraw : env.rawParse uid with
    | none => simp [List.filterMap_cons, parseOf, hraw, ih]
    | some p =>
      cases hdoc : parseEmail accounts p accountId folder (env.uuidOf uid) (env.nowOf uid) with
      | none => simp [List.filterMap_cons, parseOf, hraw, hdoc, ih]
      | some doc => simp [List.filterMap_cons, parseOf, hraw, hdoc, ih]

/-- Burst environment for the three-uid scenario: uid 2 fails to parse. -/
def envFetchScenario : FetchEnv :=
  { rawParse := fun uid =>
      if uid == 2 then none
      else some { rawNoId with
        messageId := some ("m" ++ toString uid ++ "@example.com")
        subject := some ("s" ++ toString uid) }
    uuidOf := fun uid => "uuid-" ++ toString uid
    nowOf := fun _ => "2024-01-01T10:00:00.000Z" }

/-- C6: a parse failure of one message is skipped without aborting the rest
of the burst: the batch handed to processing is exactly the per-uid parse
successes, in the original order of the fetched uids; in the concrete
three-uid scenario where uid 2 fails to parse, the batch is exactly the
messages of uids 1 and 3 in that order. -/
theorem c6_parse_failure_skipped_order_kept :
    (∀ (env : FetchEnv) (accounts : List IMAPAccount) (accountId : Nat)
        (folder : String) (uids : List Nat),
      fetchEmailsBatch env accounts accountId folder uids
        = uids.filterMap (parseOf env accounts accountId folder)) ∧
    (fetchEmailsBatch envFetchScenario accountsFixture 1 "INBOX" [1, 2, 3]).map
        (fun e => e.subject) = ["s1", "s3"] := by
  constructor
  · intro env accounts accountId folder uids
    cases uids with
    | nil => rfl
    | cons uid rest =>
      rw [fetchEmailsBatch]
      simp [collectEmails_eq_filterMap]
  · rfl

/-- Connections added by startIDLEConnection belong to the requested account
or were present before. -/
theorem mem_startIDLEConnection (env : ConnEnv) (s : SyncState) (x aid : Nat)
    (h : aid ∈ (startIDLEConnection env s x).connections) :
    aid ∈ s.connections ∨ aid = x := by
  unfold startIDLEConnection at h
  by_cases hc : env.connectOk x
  · rw [if_pos hc] at h
    unfold connInsert at h
    by_cases hm : s.connections.contains x
    · rw [if_pos hm] at h
      exact Or.inl h
    · rw [if_neg hm] at h
      simp only [List.mem_append, List.mem_singleton] at h
      exact h
  · rw [if_neg hc] at h
    unfold onImapError at h
    simp only [List.mem_filter] at h
    exact Or.inl h.1

/-- Every id in the connection map after the start loop was present before
the loop or belongs to an active account of the list. -/
theorem mem_foldl_connections (env : ConnEnv) (l : List IMAPAccount)
    (s : SyncState) (aid : Nat)
    (h : aid ∈ (l.foldl
        (fun s a => if a.isActive then startIDLEConnection env s a.id else s)
        s).connections) :
    aid ∈ s.connections ∨ ∃ a, a ∈ l ∧ a.id = aid ∧ a.isActive = true := by
  induction l generalizing s with
  | nil => exact Or.inl h
  | cons a rest ih =>
    rw [List.foldl_cons] at h
    rcases ih _ h with h1 | ⟨b, hb, hid, hact⟩
    · by_cases ha : a.isActive
      · simp [ha] at h1
        rcases mem_startIDLEConnection env s a.id aid h1 with h2 | h2
        · exact Or.inl h2
        · exact Or.inr ⟨a, List.mem_cons_self a rest, h2.symm, ha⟩
      · simp [ha] at h1
        exact Or.inl h1
    · exact Or.inr ⟨b, List.mem_cons_of_mem a hb, hid, hact⟩

/-- C7: after startSync from a fresh service, only accounts whose active
flag is true hold a live connection: the accounts are loaded through a query
filtered on is_active and the start loop guards on isActive again, so every
id in the connection map is the id of an active configured account. -/
theorem c7_only_active_connected (env : ConnEnv) (dbAccounts : List IMAPAccount)
    (aid : Nat)
    (h : aid ∈ (startSync env dbAccounts initialSyncState).connections) :
    ∃ a, a ∈ dbAccounts ∧ a.id = aid ∧ a.isActive = true := by
  unfold startSync at h
  simp only at h
  rcases mem_foldl_connections env (loadAccounts dbAccounts) _ aid h with h1 | ⟨a, ha, hid, hact⟩
  · exact absurd h1 (List.not_mem_nil aid)
  · exact ⟨a, (List.mem_filter.mp ha).1, hid, hact⟩

/-- Environment in which every IMAP connect reaches ready. -/
def envConnAll : ConnEnv := { connectOk := fun _ => true }

/-- Configured accounts for the C7 witness: account 1 active, account 2
inactive. -/
def dbAccountsW : List IMAPAccount :=
  [acctFixture, { acctFixture with id := 2, name := "other", isActive := false }]

/-- Witness for C7: in the two-account configuration, account 1 is connected
after startSync and the theorem yields its active configuration record. -/
theorem c7_witness :
    1 ∈ (startSync envConnAll dbAccountsW initialSyncState).connections ∧
    ∃ a, a ∈ dbAccountsW ∧ a.id = 1 ∧ a.isActive = true :=
  ⟨by decide, c7_only_active_connected envConnAll dbAccountsW 1 (by decide)⟩

/-- A running orchestrator with one live connection for account 1. -/
def stRunning : SyncState :=
  { accounts := [acctFixture]
    connections := [1]
    isRunning := true
    syncIntervalArmed := true
    pendingRetries := [] }

/-- C8 counterexample: the claim says every connection failure kind removes
the connection and schedules a 30-second reconnect. A clean server-side
close (hangup after an idle timeout) is delivered as the end event, whose
handler only deletes the connection: for the running state with a live
connection for account 1, the serverHangup failure leaves the retry list
empty, so no reconnect is scheduled. -/
theorem c8_counterexample :
    ¬ (∀ (st : SyncState) (aid : Nat) (f : ConnFailure),
        aid ∈ st.connections → st.isRunning = true →
        aid ∉ (onConnFailure st aid f).connections ∧
        (aid, RECONNECT_DELAY_MS) ∈ (onConnFailure st aid f).pendingRetries) := by
  intro h
  have hc := h stRunning 1 .serverHangup (by decide) rfl
  exact absurd hc.2 (by decide)

/-- C8 (amended): on an error event the connection is removed and a
reconnect is scheduled after the fixed 30000 ms delay, the scheduled retry
runs startIDLEConnection again exactly when isRunning still holds, and on a
clean end event the connection is only removed with no retry scheduled; in
both cases the isRunning flag and the connections of every other account are
untouched, so the failure terminates neither the orchestrator nor the other
accounts. -/
theorem c8_amended_reconnect_policy (env : ConnEnv) (st : SyncState) (aid b : Nat)
    (hb : b ≠ aid) :
    aid ∉ (onImapError st aid).connections ∧
    (aid, RECONNECT_DELAY_MS) ∈ (onImapError st aid).pendingRetries ∧
    (onImapError st aid).isRunning = st.isRunning ∧
    (b ∈ (onImapError st aid).connections ↔ b ∈ st.connections) ∧
    aid ∉ (onImapEnd st aid).connections ∧
    (onImapEnd st aid).pendingRetries = st.pendingRetries ∧
    (onImapEnd st aid).isRunning = st.isRunning ∧
    (b ∈ (onImapEnd st aid).connections ↔ b ∈ st.connections) ∧
    (st.isRunning = true → onRetryTimerFire env st aid = startIDLEConnection env st aid) ∧
    (st.isRunning = false → onRetryTimerFire env st aid = st) := by
  refine ⟨?_, ?_, rfl, ?_, ?_, rfl, rfl, ?_, ?_, ?_⟩
  · intro hmem
    rcases List.mem_filter.mp hmem with ⟨_, hpred⟩
    simp at hpred
  · simp [onImapError]
  · unfold onImapError
    simp only [List.mem_filter]
    constructor
    · exact fun hx => hx.1
    · intro hx
      refine ⟨hx, ?_⟩
      simpa using hb
  · intro hmem
    rcases List.mem_filter.mp hmem with ⟨_, hpred⟩
    simp at hpred
  · unfold onImapEnd
    simp only [List.mem_filter]
    constructor
    · exact fun hx => hx.1
    · intro hx
      refine ⟨hx, ?_⟩
      simpa using hb
  · intro hrun
    unfold onRetryTimerFire
    rw [if_pos hrun]
  · intro hrun
    unfold onRetryTimerFire
    rw [hrun]
    simp

/-- Witness for the amended C8: the running one-connection state with
accounts 1 (failing) and 2 (other). -/
theorem c8_amended_witness :
    (2 : Nat) ≠ 1 ∧
    (1 ∉ (onImapError stRunning 1).connections ∧
     (1, RECONNECT_DELAY_MS) ∈ (onImapError stRunning 1).pendingRetries ∧
     (onImapError stRunning 1).isRunning = stRunning.isRunning ∧
     (2 ∈ (onImapError stRunning 1).connections ↔ 2 ∈ stRunning.connections) ∧
     1 ∉ (onImapEnd stRunning 1).connections ∧
     (onImapEnd stRunning 1).pendingRetries = stRunning.pendingRetries ∧
     (onImapEnd stRunning 1).isRunning = stRunning.isRunning ∧
     (2 ∈ (onImapEnd stRunning 1).connections ↔ 2 ∈ stRunning.connections) ∧
     (stRunning.isRunning = true →
       onRetryTimerFire envConnAll stRunning 1 = startIDLEConnection envConnAll stRunning 1) ∧
     (stRunning.isRunning = false → onRetryTimerFire envConnAll stRunning 1 = stRunning)) :=
  ⟨by decide, c8_amended_reconnect_policy envConnAll stRunning 1 2 (by decide)⟩

/-- C9: stopSync clears the running flag, disarms the periodic interval and
empties the connection map; every connection.end sits behind its own catch
and the whole body behind another, so the call returns a value (never
raises) from any state, the never-started initial state included; and from
the resulting state no event can trigger a further call: the periodic tick
is disarmed, a pending reconnect timer finds isRunning false, and new-mail
events find no live connection. -/
theorem c9_stop_sync (env : StopEnv) (st : SyncState) :
    ∃ st1 logs, stopSyncE env st = .ok (st1, logs) ∧
      st1.connections = [] ∧
      st1.syncIntervalArmed = false ∧
      st1.isRunning = false ∧
      ∀ ev : OrchEvent, eventCalls st1 ev = [] := by
  refine ⟨_, _, rfl, rfl, rfl, rfl, ?_⟩
  intro ev
  cases ev with
  | periodicTick => simp [eventCalls]
  | retryTimer aid => simp [eventCalls]
  | newMail aid => simp [eventCalls]

/-- The conflict-update of the upsert rewrites only AI fields, never the
key. -/
theorem message_id_applyAiUpdate (e : EmailDocument) (r : EmailRow) :
    (applyAiUpdate e r).message_id = r.message_id := rfl

/-- Row count of a cons. -/
theorem countRows_cons (r : EmailRow) (t : List EmailRow) (mid : String) :
    countRows (r :: t) mid
      = if r.message_id == mid then countRows t mid + 1 else countRows t mid := by
  cases hr : r.message_id == mid <;> simp [countRows, List.filter_cons, hr]

/-- A positive row count for a key is the same as some row matching it. -/
theorem countRows_pos_iff (t : List EmailRow) (mid : String) :
    0 < countRows t mid ↔ t.any (fun r => r.message_id == mid) = true := by
  induction t with
  | nil => simp [countRows]
  | cons r rest ih =>
    cases hr : r.message_id == mid <;> simp [countRows_cons, hr, ih]

/-- Mapping a key-preserving function over the table preserves every
per-key row count. -/
theorem countRows_map_of_preserve (f : EmailRow → EmailRow)
    (hf : ∀ r, (f r).message_id = r.message_id) (t : List EmailRow) (mid : String) :
    countRows (t.map f) mid = countRows t mid := by
  induction t with
  | nil => rfl
  | cons r rest ih =>
    rw [List.map_cons, countRows_cons, countRows_cons, hf, ih]

/-- The conflict-update branch of the upsert preserves the key of every
row. -/
theorem upsert_branch_preserves_key (e : EmailDocument) (r : EmailRow) :
    ((if r.message_id == e.messageId then applyAiUpdate e r else r) : EmailRow).message_id
      = r.message_id := by
  by_cases h : (r.message_id == e.messageId) = true
  · rw [if_pos h]
    rfl
  · rw [if_neg h]

/-- The update branch of the upsert preserves every per-key row count. -/
theorem countRows_map_update (t : List EmailRow) (e : EmailDocument) (mid : String) :
    countRows
      (t.map (fun r => if r.message_id == e.messageId then applyAiUpdate e r else r))
      mid = countRows t mid :=
  countRows_map_of_preserve _ (upsert_branch_preserves_key e) t mid

/-- Row count for the key after one upsert: one if the key was absent, the
previous count otherwise. -/
theorem countRows_upsert (t : List EmailRow) (e : EmailDocument) :
    countRows (upsertEmailRow t e) e.messageId
      = if countRows t e.messageId = 0 then 1 else countRows t e.messageId := by
  unfold upsertEmailRow
  by_cases ha : (t.any fun r => r.message_id == e.messageId) = true
  · rw [if_pos ha, countRows_map_update]
    have hpos : 0 < countRows t e.messageId := (countRows_pos_iff t e.messageId).mpr ha
    rw [if_neg (Nat.pos_iff_ne_zero.mp hpos)]
  · rw [if_neg ha]
    have h0 : countRows t e.messageId = 0 := by
      by_contra hne
      exact ha ((countRows_pos_iff t e.messageId).mp (Nat.pos_of_ne_zero hne))
    have hnil : List.filter (fun r => r.message_id == e.messageId) t = [] :=
      List.length_eq_zero.mp h0
    rw [h0, if_pos rfl]
    unfold countRows
    rw [List.filter_append, hnil]
    simp [List.filter_cons, rowOfEmail]

/-- When the key is already present the upsert maps in place and the table
length is unchanged. -/
theorem length_upsert_present (t : List EmailRow) (e : EmailDocument)
    (h : t.any (fun r => r.message_id == e.messageId) = true) :
    (upsertEmailRow t e).length = t.length := by
  unfold upsertEmailRow
  rw [if_pos (by rw [h]), List.length_map]

/-- C3: storeEmailInDatabase is an idempotent upsert keyed by message_id.
Starting from any table in which the key occurs at most once (the UNIQUE
constraint of the emails table), two runs with the same message_id leave
exactly one row holding that key, and the second run updates in place: it
does not change the number of rows. -/
theorem c3_store_idempotent_upsert (t : List EmailRow) (e1 e2 : EmailDocument)
    (hmid : e2.messageId = e1.messageId)
    (hwf : countRows t e1.messageId ≤ 1) :
    countRows (upsertEmailRow (upsertEmailRow t e1) e2) e1.messageId = 1 ∧
    (upsertEmailRow (upsertEmailRow t e1) e2).length
      = (upsertEmailRow t e1).length := by
  have h1 : countRows (upsertEmailRow t e1) e1.messageId = 1 := by
    rw [countRows_upsert]
    by_cases h0 : countRows t e1.messageId = 0
    · rw [if_pos h0]
    · rw [if_neg h0]
      omega
  have hany : (upsertEmailRow t e1).any (fun r => r.message_id == e2.messageId) = true := by
    rw [hmid]
    refine (countRows_pos_iff _ _).mp ?_
    rw [h1]
    exact Nat.one_pos
  constructor
  · have h2 := countRows_upsert (upsertEmailRow t e1) e2
    rw [hmid] at h2
    rw [h2, if_neg (by rw [h1]; exact Nat.one_ne_zero)]
    exact h1
  · exact length_upsert_present _ _ hany

/-- Concrete email for the C3 witness. -/
def emailW : EmailDocument := mkEmail "id-w" "mid-w" "w"

/-- Witness for C3: from the empty table, upserting the same message twice
leaves exactly one row and the second upsert adds none. -/
theorem c3_witness :
    emailW.messageId = emailW.messageId ∧
    countRows [] emailW.messageId ≤ 1 ∧
    (countRows (upsertEmailRow (upsertEmailRow [] emailW) emailW) emailW.messageId = 1 ∧
     (upsertEmailRow (upsertEmailRow [] emailW) emailW).length
       = (upsertEmailRow [] emailW).length) :=
  ⟨rfl, by decide, c3_store_idempotent_upsert [] emailW emailW rfl (by decide)⟩

/-- A provider throw (including a timeout surfaced as a rejection) always
lands in the catch of categorizeEmail, whatever provider is configured, and
yields the default categorization. -/
theorem categorizeEmail_throw (st : AIServiceState) (m s b f : String) :
    categorizeEmail st (.throwErr m) s b f = defaultCategorization := by
  unfold categorizeEmail
  by_cases h1 : (st.provider == "openai" && st.hasOpenAI) = true
  · rw [if_pos h1]
    unfold categorizeWithOpenAI
    have hopen : st.hasOpenAI = true := (Bool.and_eq_true _ _).mp h1 |>.2
    rw [hopen]
    rfl
  · rw [if_neg h1]
    by_cases h2 : st.hasAnthropic = true
    · rw [if_pos h2]
      unfold categorizeWithAnthropic
      rw [h2]
      rfl
    · rw [if_neg h2]

/-- After the update branch of the upsert, the key finds a row carrying the
AI fields of the upserted email. -/
theorem dbFindRow_map_update (t : List EmailRow) (e : EmailDocument)
    (h : (t.any fun r => r.message_id == e.messageId) = true) :
    ∃ r, dbFindRow
        (t.map (fun x => if x.message_id == e.messageId then applyAiUpdate e x else x))
        e.messageId = some r ∧
      r.ai_category = e.aiCategory ∧ r.ai_confidence = e.aiConfidence := by
  induction t with
  | nil => simp at h
  | cons r rest ih =>
    by_cases hr : (r.message_id == e.messageId) = true
    · refine ⟨applyAiUpdate e r, ?_, rfl, rfl⟩
      unfold dbFindRow
      rw [List.map_cons, if_pos hr]
      have hp : ((applyAiUpdate e r).message_id == e.messageId) = true := by
        rw [message_id_applyAiUpdate]
        exact hr
      exact List.find?_cons_of_pos _ hp
    · have h2 : (rest.any fun x => x.message_id == e.messageId) = true := by
        rcases List.any_eq_true.mp h with ⟨x, hx, hpx⟩
        rcases List.mem_cons.mp hx with hxr | hx2
        · exact absurd (hxr ▸ hpx) hr
        · exact List.any_eq_true.mpr ⟨x, hx2, hpx⟩
      obtain ⟨w, hw, hcat, hconf⟩ := ih h2
      refine ⟨w, ?_, hcat, hconf⟩
      unfold dbFindRow at hw
      unfold dbFindRow
      rw [List.map_cons, if_neg hr, List.find?_cons_of_neg _ (by simpa using hr), hw]

/-- After an upsert, looking the table up by the message_id of the email yields a
row whose AI fields are those of the upserted email, whether the key was
present or not. -/
theorem dbFindRow_upsert (t : List EmailRow) (e : EmailDocument) :
    ∃ r, dbFindRow (upsertEmailRow t e) e.messageId = some r ∧
      r.ai_category = e.aiCategory ∧ r.ai_confidence = e.aiConfidence := by
  unfold upsertEmailRow
  by_cases ha : (t.any fun r => r.message_id == e.messageId) = true
  · rw [if_pos ha]
    exact dbFindRow_map_update t e ha
  · rw [if_neg ha]
    refine ⟨rowOfEmail e, ?_, rfl, rfl⟩
    unfold dbFindRow
    rw [List.find?_append]
    have hnone : (t.find? fun r => r.message_id == e.messageId) = none := by
      rw [List.find?_eq_none]
      intro x hx hpx
      exact ha (List.any_eq_true.mpr ⟨x, hx, hpx⟩)
    rw [hnone]
    simp [rowOfEmail]

/-- C4: when the classification collaborator throws (or its call times out
and rejects), categorizeEmail returns the default categorization, the
message still reaches the Postgres store with the default label and
confidence 1/2, processOne returns normally, and the remaining messages of
the batch are processed exactly as they would be from the post-message
state. -/
theorem c4_classification_failure_isolated (env : PipelineEnv) (st : PipelineState)
    (e : EmailDocument) (rest : List EmailDocument) (m : String)
    (hai : env.aiResp e.id = .throwErr m)
    (hdup : getEmailById st.es e.id = none)
    (hdb : env.dbOk e.id = true)
    (hidx : env.indexOk e.id = true) :
    ∃ st1, processOne env st e = .ok st1 ∧
      (∃ r, dbFindRow st1.db e.messageId = some r ∧
        r.ai_category = "Not Interested" ∧ r.ai_confidence = .num (1/2)) ∧
      processEmails env st (e :: rest) = processEmails env st1 rest := by
  have hcat : categorizeEmail env.aiState (env.aiResp e.id)
      e.subject e.bodyText e.fromEmail = defaultCategorization := by
    rw [hai]
    exact categorizeEmail_throw env.aiState m e.subject e.bodyText e.fromEmail
  have hone : ∃ st1, processOne env st e = .ok st1 ∧
      st1.db = upsertEmailRow st.db
        { e with aiCategory := "Not Interested", aiConfidence := .num (1/2) } := by
    unfold processOne
    rw [hdup]
    simp only [hcat]
    rw [show (({ e with
          aiCategory := defaultCategorization.category,
          aiConfidence := defaultCategorization.confidence } : EmailDocument).id)
        = e.id from rfl]
    rw [hdb, hidx]
    unfold storeEmailInDatabase
    simp only [if_pos rfl]
    exact ⟨_, rfl, rfl⟩
  obtain ⟨st1, h1, h1db⟩ := hone
  refine ⟨st1, h1, ?_, ?_⟩
  · rw [h1db]
    have := dbFindRow_upsert st.db
      { e with aiCategory := "Not Interested", aiConfidence := .num (1/2) }
    simpa using this
  · unfold processEmails
    have hl : processLoop env st (e :: rest) = processLoop env st1 rest := by
      simp only [processLoop, h1]
    rw [hl]

/-- Environment in which the classification provider throws on every call
and every other collaborator succeeds. -/
def envAiThrow : PipelineEnv :=
  { envHappy with aiResp := fun _ => .throwErr "ai down" }

/-- First message of the C4 witness batch. -/
def emailA : EmailDocument := mkEmail "id-A" "mid-A" "first"

/-- Second message of the C4 witness batch. -/
def emailB : EmailDocument := mkEmail "id-B" "mid-B" "second"

/-- Witness for C4: a concrete two-message batch whose first classification
call throws; the message is stored with the default label and the batch
continues from the post-message state. -/
theorem c4_witness :
    envAiThrow.aiResp emailA.id = .throwErr "ai down" ∧
    getEmailById emptyPipelineState.es emailA.id = none ∧
    envAiThrow.dbOk emailA.id = true ∧
    envAiThrow.indexOk emailA.id = true ∧
    ∃ st1, processOne envAiThrow emptyPipelineState emailA = .ok st1 ∧
      (∃ r, dbFindRow st1.db emailA.messageId = some r ∧
        r.ai_category = "Not Interested" ∧ r.ai_confidence = .num (1/2)) ∧
      processEmails envAiThrow emptyPipelineState (emailA :: [emailB])
        = processEmails envAiThrow st1 [emailB] :=
  ⟨rfl, rfl, rfl, rfl,
    c4_classification_failure_isolated envAiThrow emptyPipelineState emailA
      [emailB] "ai down" rfl rfl rfl rfl⟩

/-- An AIService configured for the OpenAI provider. -/
def aiStOpenAI : AIServiceState :=
  { provider := "openai", hasOpenAI := true, hasAnthropic := false }

/-- C10 counterexample: the claim says the returned confidence always lies
in the closed interval zero to one. A parsable provider response whose
confidence field is missing or non-numeric coerces to NaN, and the clamp
Math.min(Math.max(NaN, 0), 1) propagates NaN, which is outside the
interval. -/
theorem c10_counterexample :
    ¬ (∀ (st : AIServiceState) (resp : ProviderResult) (s b f : String),
        (categorizeEmail st resp s b f).confidence.inUnitInterval) := by
  intro h
  exact (by decide :
      ¬ (categorizeEmail aiStOpenAI
          (.parsed "Spam" .nan "no confidence field") "s" "b" "f").confidence.inUnitInterval)
    (h aiStOpenAI (.parsed "Spam" .nan "no confidence field") "s" "b" "f")

/-- Provider responses whose confidence is an actual number, plus every
failing response shape; only a parsable response with a non-numeric
confidence is excluded. -/
def numericConfidence : ProviderResult → Prop
  | .parsed _ (.num _) _ => True
  | .parsed _ .nan _ => False
  | _ => True

/-- The clamp of a numeric confidence lies in the unit interval. -/
theorem clampConfidence_inUnit (q : ℚ) : (clampConfidence (.num q)).inUnitInterval := by
  show (JSNum.num (min (max q 0) 1)).inUnitInterval
  exact ⟨le_min (le_max_right q 0) zero_le_one, min_le_right _ _⟩

/-- The default categorization carries confidence one half, which is in the
unit interval. -/
theorem defaultCategorization_conf_inUnit :
    defaultCategorization.confidence.inUnitInterval := by
  show (JSNum.num (1/2)).inUnitInterval
  constructor <;> norm_num

/-- C10 (amended): categorizeEmail is total by construction (every provider
failure is data landing in the catch), and the returned confidence lies in
the closed interval zero to one for every provider behaviour except a
parsable response whose confidence field is not a number: errors and missing
providers yield the default one half, and a numeric confidence is clamped
into the interval. -/
theorem c10_amended_confidence_in_unit (st : AIServiceState) (resp : ProviderResult)
    (s b f : String) (h : numericConfidence resp) :
    (categorizeEmail st resp s b f).confidence.inUnitInterval := by
  have hdef := defaultCategorization_conf_inUnit
  show (match
      (if st.provider == "openai" && st.hasOpenAI then categorizeWithOpenAI st resp
       else if st.hasAnthropic then categorizeWithAnthropic st resp
       else .error "No AI provider configured" : Except String EmailCategorization) with
    | .ok c => c
    | .error _ => defaultCategorization).confidence.inUnitInterval
  by_cases h1 : (st.provider == "openai" && st.hasOpenAI) = true
  · rw [if_pos h1]
    unfold categorizeWithOpenAI
    rw [((Bool.and_eq_true _ _).mp h1).2]
    cases resp with
    | throwErr m => exact hdef
    | noContent => exact hdef
    | unparsable => exact hdef
    | parsed c conf r =>
      cases conf with
      | num q => exact clampConfidence_inUnit q
      | nan => exact h.elim
  · rw [if_neg h1]
    by_cases h2 : st.hasAnthropic = true
    · rw [if_pos h2]
      unfold categorizeWithAnthropic
      rw [h2]
      cases resp with
      | throwErr m => exact hdef
      | noContent => exact hdef
      | unparsable => exact hdef
      | parsed c conf r =>
        cases conf with
        | num q => exact clampConfidence_inUnit q
        | nan => exact h.elim
    · rw [if_neg h2]
      exact hdef

/-- Witness for the amended C10: a numeric provider confidence of nine
tenths yields a confidence in the unit interval. -/
theorem c10_amended_witness :
    numericConfidence (.parsed "Interested" (.num (9/10)) "clear interest") ∧
    (categorizeEmail aiStOpenAI (.parsed "Interested" (.num (9/10)) "clear interest")
      "s" "b" "f").confidence.inUnitInterval :=
  ⟨trivial,
    c10_amended_confidence_in_unit aiStOpenAI
      (.parsed "Interested" (.num (9/10)) "clear interest") "s" "b" "f" trivial⟩

end ReachInbox
